import Mathlib

set_option maxRecDepth 8000

/-!
Shallow embedding of the senpa firewall-log parser (src/src/*.rs).
The input is a list of characters; a parser either fails (`none`) or
returns `some (rest, value)` where `rest` is the unconsumed suffix,
mirroring nom's `IResult<&str, O>` with all error kinds collapsed.
-/

namespace Senpa

abbrev P (α : Type) : Type := List Char → Option (List Char × α)

/-- nom `character::complete::char`. -/
def pchar (c : Char) : P Char := fun s =>
  match s with
  | [] => none
  | d :: t => if d = c then some (t, c) else none

def tagAux : List Char → List Char → Option (List Char)
  | [], s => some s
  | _ :: _, [] => none
  | c :: cs, d :: ds => if d = c then tagAux cs ds else none

/-- nom `bytes::complete::tag`. -/
def tag (t : List Char) : P (List Char) := fun s =>
  match tagAux t s with
  | none => none
  | some r => some (r, t)

/-- nom `branch::alt` for two alternatives (errors are not fatal). -/
def alt (p q : P α) : P α := fun s =>
  match p s with
  | some x => some x
  | none => q s

/-- nom `sequence::terminated`. -/
def terminated (p : P α) (q : P β) : P α := fun s =>
  match p s with
  | none => none
  | some (r, v) =>
    match q r with
    | none => none
    | some (r2, _) => some (r2, v)

/-- nom `sequence::preceded`. -/
def preceded (p : P α) (q : P β) : P β := fun s =>
  match p s with
  | none => none
  | some (r, _) => q r

/-- nom `combinator::peek`. -/
def peek (p : P α) : P α := fun s =>
  match p s with
  | none => none
  | some (_, v) => some (s, v)

/-- nom `combinator::opt` (complete variant: failure consumes nothing). -/
def opt (p : P α) : P (Option α) := fun s =>
  match p s with
  | none => some (s, none)
  | some (r, v) => some (r, some v)

/-- nom `combinator::eof`. -/
def eof : P Unit := fun s =>
  match s with
  | [] => some ([], ())
  | _ => none

/-- nom `combinator::rest`. -/
def rest : P (List Char) := fun s => some ([], s)

/-- nom `bytes::complete::take_while` (may match the empty run). -/
def take_while (p : Char → Bool) : P (List Char) := fun s =>
  some (s.dropWhile p, s.takeWhile p)

/-- nom `bytes::complete::take_till` (may match the empty run). -/
def take_till (p : Char → Bool) : P (List Char) :=
  take_while (fun c => !(p c))

/-- nom `sequence::separated_pair`. -/
def separated_pair (p : P α) (sep : P γ) (q : P β) : P (α × β) := fun s =>
  match p s with
  | none => none
  | some (r1, a) =>
    match sep r1 with
    | none => none
    | some (r2, _) =>
      match q r2 with
      | none => none
      | some (r3, b) => some (r3, (a, b))

/-- nom `character::complete::alphanumeric1` (ASCII letters and digits). -/
def alphanumeric1 : P (List Char) := fun s =>
  match s.takeWhile Char.isAlphanum with
  | [] => none
  | t => some (s.dropWhile Char.isAlphanum, t)

/-- Digit-accumulation loop of nom's `character::complete::{u8,u16,u32}`:
on each further digit the value is extended, failing (not stopping) on
overflow past `maxVal`; a non-digit ends the number. -/
def parseUIntLoop (maxVal : Nat) : List Char → Nat → Option (List Char × Nat)
  | [], acc => some ([], acc)
  | c :: cs, acc =>
    if c.isDigit then
      let v := acc * 10 + (c.toNat - 48)
      if v ≤ maxVal then parseUIntLoop maxVal cs v else none
    else some (c :: cs, acc)

/-- nom `character::complete::{u8,u16,u32}`: at least one decimal digit,
overflow is an error. -/
def parseUInt (maxVal : Nat) : P Nat := fun s =>
  match s with
  | [] => none
  | c :: cs =>
    if c.isDigit then parseUIntLoop maxVal cs (c.toNat - 48)
    else none

def parse_u8 : P Nat := parseUInt 255
def parse_u16 : P Nat := parseUInt 65535
def parse_u32 : P Nat := parseUInt 4294967295

/-! Embedding of `src/src/utils.rs`. -/

/-- `utils::csv`: the given parser followed by a comma. -/
def csv (p : P α) : P α := terminated p (pchar ',')

/-- `utils::parse_utf8_string`: the (possibly empty) run of non-comma
characters. -/
def parse_utf8_string : P (List Char) := take_while (fun c => c != ',')

def hexDigitSet : List Char := "0123456789abcdefABCDEF".data

/-- `recognize(many1(one_of "0123...ABCDEF"))`: the maximal nonempty run of
characters from the set. -/
def one_of_many1 (cs : List Char) : P (List Char) := fun s =>
  match s.takeWhile (fun c => cs.contains c) with
  | [] => none
  | t => some (s.dropWhile (fun c => cs.contains c), t)

def hexDigitVal (c : Char) : Nat :=
  if c.isDigit then c.toNat - 48
  else if 'a' ≤ c ∧ c ≤ 'f' then c.toNat - 87
  else c.toNat - 55

def hexVal (ds : List Char) : Nat := ds.foldl (fun a c => 16 * a + hexDigitVal c) 0

/-- `utils::hexadecimal_value`: `0x`/`0X`, one or more hex digits, decoded
by `u8::from_str_radix` (so a numeric value above 255 is an error). -/
def hexadecimal_value : P Nat := fun s =>
  match alt (tag "0x".data) (tag "0X".data) s with
  | none => none
  | some (r, _) =>
    match one_of_many1 hexDigitSet r with
    | none => none
    | some (r2, ds) => if hexVal ds ≤ 255 then some (r2, hexVal ds) else none

/-! Embedding of `src/src/protocol.rs`. -/

inductive ProtoName
  | Tcp
  | Udp
  | Other (s : List Char)
deriving DecidableEq

/-- `ProtoName::from_str` (the source returns `Ok` in every arm of its
match on the literals "udp" and "tcp"; the arms are disjoint, so the match
is rendered as an equality cascade). -/
def ProtoName.fromStr (s : List Char) : Except Unit ProtoName :=
  if s = "udp".data then .ok .Udp
  else if s = "tcp".data then .ok .Tcp
  else .ok (.Other s)

/-- `Result::unwrap` at type `Result<ProtoName, ()>`; the `Err` branch is a
Rust panic, which theorem `C6`  shows is unreachable for `fromStr`. -/
def ProtoName.unwrapFromStr (e : Except Unit ProtoName) : ProtoName :=
  match e with
  | .ok v => v
  | .error _ => .Other []

structure Protocol where
  num : Nat
  name : ProtoName
deriving DecidableEq

structure Ports where
  srcport : Nat
  dstport : Nat
deriving DecidableEq

/-- `protocol::parse_src_dst_ports`. -/
def parse_src_dst_ports : P Ports := fun input =>
  match csv parse_u16 input with
  | none => none
  | some (next, srcport) =>
    match csv parse_u16 next with
    | none => none
    | some (next2, dstport) => some (next2, ⟨srcport, dstport⟩)

structure TcpInfo where
  ports : Ports
  data_len : Nat
  flags : List Char
  sequence_number : List Char
  ack_number : Option Nat
  window : Nat
  urg : Option Nat
  options : List Char
deriving DecidableEq

structure UdpInfo where
  ports : Ports
  data_len : Nat
deriving DecidableEq

inductive ProtoInfo
  | UdpInfo (u : UdpInfo)
  | TcpInfo (t : TcpInfo)
  | UnknownInfo (s : List Char)
deriving DecidableEq

/-- `protocol::parse_tcp_info`. -/
def parse_tcp_info : P ProtoInfo := fun input =>
  match parse_src_dst_ports input with
  | none => none
  | some (n1, ports) =>
  match csv parse_u32 n1 with
  | none => none
  | some (n2, data_len) =>
  match csv parse_utf8_string n2 with
  | none => none
  | some (n3, flags) =>
  match csv (take_till (fun c => c == ',')) n3 with
  | none => none
  | some (n4, sequence_number) =>
  match csv (opt parse_u32) n4 with
  | none => none
  | some (n5, ack_number) =>
  match csv parse_u32 n5 with
  | none => none
  | some (n6, window) =>
  match csv (opt parse_u32) n6 with
  | none => none
  | some (n7, urg) =>
  match rest n7 with
  | none => none
  | some (n8, options) =>
    some (n8, .TcpInfo ⟨ports, data_len, flags, sequence_number, ack_number, window, urg, options⟩)

/-- `protocol::parse_udp_info`: the payload length must be followed by
end of input. -/
def parse_udp_info : P ProtoInfo := fun input =>
  match parse_src_dst_ports input with
  | none => none
  | some (next, ports) =>
    match terminated parse_u32 eof next with
    | none => none
    | some (next2, data_len) => some (next2, .UdpInfo ⟨ports, data_len⟩)

/-- `protocol::parse_proto_info`. -/
def parse_proto_info (input : List Char) (proto : ProtoName) :
    Option (List Char × ProtoInfo) :=
  match proto with
  | .Tcp => parse_tcp_info input
  | .Udp => parse_udp_info input
  | .Other _ =>
    match terminated parse_utf8_string eof input with
    | none => none
    | some (next, s) => some (next, .UnknownInfo s)

/-! Embedding of `src/src/packet_filter.rs`. -/

inductive Dir
  | In
  | Out
deriving DecidableEq

/-- `Dir::from_str`. -/
def Dir.fromStr (s : List Char) : Except Unit Dir :=
  match s with
  | ['i', 'n'] => .ok .In
  | ['o', 'u', 't'] => .ok .Out
  | _ => .error ()

/-- `packet_filter::parse_dir`: a keyword tag anchored by a peeked comma,
then rechecked through `Dir::from_str`. -/
def parse_dir : P Dir := fun input =>
  match terminated (alt (tag "in".data) (tag "out".data)) (peek (pchar ',')) input with
  | none => none
  | some (next, dir) =>
    match Dir.fromStr dir with
    | .ok d => some (next, d)
    | .error _ => none

inductive Reason
  | Match
deriving DecidableEq

/-- `Reason::from_str`. -/
def Reason.fromStr (s : List Char) : Except Unit Reason :=
  match s with
  | ['m', 'a', 't', 'c', 'h'] => .ok .Match
  | _ => .error ()

/-- `packet_filter::parse_reason`. -/
def parse_reason : P Reason := fun input =>
  match terminated (tag "match".data) (peek (pchar ',')) input with
  | none => none
  | some (next, r) =>
    match Reason.fromStr r with
    | .ok v => some (next, v)
    | .error _ => none

inductive Action
  | Pass
  | Block
  | Reject
deriving DecidableEq

/-- `Action::from_str`. -/
def Action.fromStr (s : List Char) : Except Unit Action :=
  match s with
  | ['p', 'a', 's', 's'] => .ok .Pass
  | ['b', 'l', 'o', 'c', 'k'] => .ok .Block
  | ['r', 'e', 'j', 'e', 'c', 't'] => .ok .Reject
  | _ => .error ()

/-- `packet_filter::parse_action`. -/
def parse_action : P Action := fun input =>
  match terminated (alt (tag "pass".data) (alt (tag "block".data) (tag "reject".data)))
      (peek (pchar ',')) input with
  | none => none
  | some (next, a) =>
    match Action.fromStr a with
    | .ok v => some (next, v)
    | .error _ => none

structure RuleInfo where
  number : Nat
  subrulenr : Option Nat
  anchorname : Option (List Char)
  label : List Char
deriving DecidableEq

/-- `packet_filter::parse_rule_info`. -/
def parse_rule_info : P RuleInfo := fun input =>
  match csv parse_u32 input with
  | none => none
  | some (n1, rulenr) =>
  match csv (opt parse_u32) n1 with
  | none => none
  | some (n2, subrulenr) =>
  match csv (opt alphanumeric1) n2 with
  | none => none
  | some (n3, anchorname) =>
  match csv alphanumeric1 n3 with
  | none => none
  | some (n4, label) => some (n4, ⟨rulenr, subrulenr, anchorname, label⟩)

structure PacketFilter where
  rule_info : RuleInfo
  interface : List Char
  reason : Reason
  action : Action
  dir : Dir
deriving DecidableEq

/-- `packet_filter::parse_packet_filter`. -/
def parse_packet_filter : P PacketFilter := fun input =>
  match parse_rule_info input with
  | none => none
  | some (n1, rule_info) =>
  match csv parse_utf8_string n1 with
  | none => none
  | some (n2, interface) =>
  match csv parse_reason n2 with
  | none => none
  | some (n3, reason) =>
  match csv parse_action n3 with
  | none => none
  | some (n4, action) =>
  match csv parse_dir n4 with
  | none => none
  | some (n5, dir) => some (n5, ⟨rule_info, interface, reason, action, dir⟩)

/-! Helper lemmas about the combinators. -/

theorem tagAux_eq_some (t s r : List Char) : tagAux t s = some r ↔ s = t ++ r := by
  induction t generalizing s with
  | nil => simp [tagAux]
  | cons c cs ih =>
    cases s with
    | nil => simp [tagAux]
    | cons d ds =>
      by_cases hd : d = c
      · subst hd
        simp [tagAux, ih]
      · simp [tagAux, hd, Ne.symm hd]

theorem terminated_alt (p q : P α) (k : P β) (s : List Char) (x : List Char × α) :
    terminated (alt p q) k s = some x ↔
      terminated p k s = some x ∨ (p s = none ∧ terminated q k s = some x) := by
  unfold terminated alt
  cases hp : p s with
  | none => simp
  | some y => simp

theorem term_peek_tag (kw s : List Char) (x : List Char × List Char) :
    terminated (tag kw) (peek (pchar ',')) s = some x ↔
      ∃ t, s = kw ++ ',' :: t ∧ x = (',' :: t, kw) := by
  cases h : tagAux kw s with
  | none =>
    have lhs : terminated (tag kw) (peek (pchar ',')) s = none := by
      simp [terminated, tag, h]
    rw [lhs]
    constructor
    · intro hx; cases hx
    · rintro ⟨t, hs, -⟩
      have h2 := (tagAux_eq_some kw s (',' :: t)).mpr hs
      rw [h] at h2; cases h2
  | some r =>
    have hs : s = kw ++ r := (tagAux_eq_some kw s r).mp h
    cases r with
    | nil =>
      have lhs : terminated (tag kw) (peek (pchar ',')) s = none := by
        simp [terminated, tag, peek, pchar, h]
      rw [lhs]
      constructor
      · intro hx; cases hx
      · rintro ⟨t, hst, -⟩
        rw [hs] at hst
        have h2 := List.append_cancel_left hst
        cases h2
    | cons c u =>
      by_cases hc : c = ','
      · subst hc
        have lhs : terminated (tag kw) (peek (pchar ',')) s = some (',' :: u, kw) := by
          simp [terminated, tag, peek, pchar, h]
        rw [lhs]
        constructor
        · intro hx
          refine ⟨u, by rw [hs], ?_⟩
          cases hx; rfl
        · rintro ⟨t, hst, hx⟩
          rw [hs] at hst
          have h2 := List.append_cancel_left hst
          cases h2
          rw [hx]
      · have lhs : terminated (tag kw) (peek (pchar ',')) s = none := by
          simp [terminated, tag, peek, pchar, h, hc]
        rw [lhs]
        constructor
        · intro hx; cases hx
        · rintro ⟨t, hst, -⟩
          rw [hs] at hst
          have h2 := List.append_cancel_left hst
          have h3 : c = ',' := by injection h2
          exact (hc h3).elim

theorem parse_reason_eq (s : List Char) (x : List Char × Reason) :
    parse_reason s = some x ↔
      ∃ t, s = "match".data ++ ',' :: t ∧ x = (',' :: t, Reason.Match) := by
  constructor
  · intro hx
    unfold parse_reason at hx
    cases hterm : terminated (tag "match".data) (peek (pchar ',')) s with
    | none => rw [hterm] at hx; cases hx
    | some y =>
      rw [hterm] at hx
      rcases (term_peek_tag _ _ _).mp hterm with ⟨t, hs, hy⟩
      subst hy
      have hx2 : some ((',' :: t : List Char), Reason.Match) = some x := hx
      exact ⟨t, hs, by cases hx2; rfl⟩
  · rintro ⟨t, hs, hx⟩
    subst hs; subst hx; rfl

theorem parse_dir_eq (s : List Char) (x : List Char × Dir) :
    parse_dir s = some x ↔
      (∃ t, s = "in".data ++ ',' :: t ∧ x = (',' :: t, Dir.In)) ∨
      (∃ t, s = "out".data ++ ',' :: t ∧ x = (',' :: t, Dir.Out)) := by
  constructor
  · intro hx
    unfold parse_dir at hx
    cases hterm : terminated (alt (tag "in".data) (tag "out".data)) (peek (pchar ',')) s with
    | none => rw [hterm] at hx; cases hx
    | some y =>
      rw [hterm] at hx
      rcases (terminated_alt _ _ _ _ _).mp hterm with hin | ⟨-, hout⟩
      · rcases (term_peek_tag _ _ _).mp hin with ⟨t, hs, hy⟩
        subst hy
        have hx2 : some ((',' :: t : List Char), Dir.In) = some x := hx
        exact Or.inl ⟨t, hs, by cases hx2; rfl⟩
      · rcases (term_peek_tag _ _ _).mp hout with ⟨t, hs, hy⟩
        subst hy
        have hx2 : some ((',' :: t : List Char), Dir.Out) = some x := hx
        exact Or.inr ⟨t, hs, by cases hx2; rfl⟩
  · rintro (⟨t, hs, hx⟩ | ⟨t, hs, hx⟩) <;> subst hs <;> subst hx <;> rfl

theorem parse_action_eq (s : List Char) (x : List Char × Action) :
    parse_action s = some x ↔
      (∃ t, s = "pass".data ++ ',' :: t ∧ x = (',' :: t, Action.Pass)) ∨
      (∃ t, s = "block".data ++ ',' :: t ∧ x = (',' :: t, Action.Block)) ∨
      (∃ t, s = "reject".data ++ ',' :: t ∧ x = (',' :: t, Action.Reject)) := by
  constructor
  · intro hx
    unfold parse_action at hx
    cases hterm : terminated (alt (tag "pass".data) (alt (tag "block".data) (tag "reject".data)))
        (peek (pchar ',')) s with
    | none => rw [hterm] at hx; cases hx
    | some y =>
      rw [hterm] at hx
      rcases (terminated_alt _ _ _ _ _).mp hterm with hp | ⟨-, hrest⟩
      · rcases (term_peek_tag _ _ _).mp hp with ⟨t, hs, hy⟩
        subst hy
        have hx2 : some ((',' :: t : List Char), Action.Pass) = some x := hx
        exact Or.inl ⟨t, hs, by cases hx2; rfl⟩
      · rcases (terminated_alt _ _ _ _ _).mp hrest with hb | ⟨-, hr⟩
        · rcases (term_peek_tag _ _ _).mp hb with ⟨t, hs, hy⟩
          subst hy
          have hx2 : some ((',' :: t : List Char), Action.Block) = some x := hx
          exact Or.inr (Or.inl ⟨t, hs, by cases hx2; rfl⟩)
        · rcases (term_peek_tag _ _ _).mp hr with ⟨t, hs, hy⟩
          subst hy
          have hx2 : some ((',' :: t : List Char), Action.Reject) = some x := hx
          exact Or.inr (Or.inr ⟨t, hs, by cases hx2; rfl⟩)
  · rintro (⟨t, hs, hx⟩ | ⟨t, hs, hx⟩ | ⟨t, hs, hx⟩) <;> subst hs <;> subst hx <;> rfl

/-- Claim C4: the reason, action and direction keyword parsers succeed
exactly on a valid keyword anchored by the comma delimiter: reason only on
"match", action only on "pass"/"block"/"reject", direction only on
"in"/"out"; any other token — in particular a strict superstring or
substring of a keyword — fails. -/
theorem C4 (s : List Char) (xr : List Char × Reason) (xa : List Char × Action)
    (xd : List Char × Dir) :
    (parse_reason s = some xr ↔
      ∃ t, s = "match".data ++ ',' :: t ∧ xr = (',' :: t, Reason.Match)) ∧
    (parse_action s = some xa ↔
      (∃ t, s = "pass".data ++ ',' :: t ∧ xa = (',' :: t, Action.Pass)) ∨
      (∃ t, s = "block".data ++ ',' :: t ∧ xa = (',' :: t, Action.Block)) ∨
      (∃ t, s = "reject".data ++ ',' :: t ∧ xa = (',' :: t, Action.Reject))) ∧
    (parse_dir s = some xd ↔
      (∃ t, s = "in".data ++ ',' :: t ∧ xd = (',' :: t, Dir.In)) ∨
      (∃ t, s = "out".data ++ ',' :: t ∧ xd = (',' :: t, Dir.Out))) :=
  ⟨parse_reason_eq s xr, parse_action_eq s xa, parse_dir_eq s xd⟩

/-- Claim C8: an empty run between two delimiters decodes every optional
field (sub-rule index, anchor name, ECN, TCP ack, TCP urgency pointer) to
`none` and is not an error, while a present well-formed run decodes to
`some`; concrete rule-info and TCP lines show both outcomes end to end. -/
theorem C8 :
    (∀ t, csv (opt parse_u32) (',' :: t) = some (t, none)) ∧
    (∀ t, csv (opt alphanumeric1) (',' :: t) = some (t, none)) ∧
    (∀ s t v, parse_u32 s = some (',' :: t, v) →
      csv (opt parse_u32) s = some (t, some v)) ∧
    (∀ s t v, alphanumeric1 s = some (',' :: t, v) →
      csv (opt alphanumeric1) s = some (t, some v)) ∧
    parse_rule_info "15,,,ab,".data = some ([], ⟨15, none, none, ['a', 'b']⟩) ∧
    parse_rule_info "15,7,anc,ab,".data =
      some ([], ⟨15, some 7, some "anc".data, ['a', 'b']⟩) ∧
    parse_tcp_info "1,2,0,S,9,,64,,op".data =
      some ([], .TcpInfo ⟨⟨1, 2⟩, 0, ['S'], ['9'], none, 64, none, "op".data⟩) ∧
    parse_tcp_info "1,2,0,S,9,5,64,7,op".data =
      some ([], .TcpInfo ⟨⟨1, 2⟩, 0, ['S'], ['9'], some 5, 64, some 7, "op".data⟩) := by
  refine ⟨fun t => rfl, fun t => rfl, ?_, ?_, by decide, by decide, by decide, by decide⟩
  · intro s t v h
    simp [csv, terminated, opt, h, pchar]
  · intro s t v h
    simp [csv, terminated, opt, h, pchar]

/-- Witness for C8: a present sub-rule number and a present anchor name
decode to populated values. -/
theorem C8_witness :
    csv (opt parse_u32) "12,x".data = some (['x'], some 12) ∧
    csv (opt alphanumeric1) "ab,x".data = some (['x'], some ['a', 'b']) :=
  ⟨C8.2.2.1 "12,x".data ['x'] 12 (by decide),
   C8.2.2.2.1 "ab,x".data ['x'] ['a', 'b'] (by decide)⟩

/-- Claim C9: once the three rule-identity fields are consumed, the
mandatory label accepts exactly a nonempty alphanumeric run anchored by a
comma; an empty label or a label whose alphanumeric run is followed by any
character other than a comma makes rule-info parsing — and with it the
filter-decision stage — fail. -/
theorem C9 (input r1 r2 r3 : List Char) (n : Nat) (sub : Option Nat)
    (anc : Option (List Char))
    (h1 : csv parse_u32 input = some (r1, n))
    (h2 : csv (opt parse_u32) r1 = some (r2, sub))
    (h3 : csv (opt alphanumeric1) r2 = some (r3, anc)) :
    (r3.takeWhile Char.isAlphanum = [] →
      parse_rule_info input = none ∧ parse_packet_filter input = none) ∧
    (∀ t, r3.dropWhile Char.isAlphanum = ',' :: t → r3.takeWhile Char.isAlphanum ≠ [] →
      parse_rule_info input = some (t, ⟨n, sub, anc, r3.takeWhile Char.isAlphanum⟩)) ∧
    (∀ c t, r3.dropWhile Char.isAlphanum = c :: t → c ≠ ',' →
      parse_rule_info input = none ∧ parse_packet_filter input = none) := by
  have hrule : parse_rule_info input =
      (match csv alphanumeric1 r3 with
       | none => none
       | some (n4, label) => some (n4, ⟨n, sub, anc, label⟩)) := by
    simp [parse_rule_info, h1, h2, h3]
  refine ⟨?_, ?_, ?_⟩
  · intro hempty
    have hnone : parse_rule_info input = none := by
      rw [hrule]; simp [csv, terminated, alphanumeric1, hempty]
    exact ⟨hnone, by simp [parse_packet_filter, hnone]⟩
  · intro t hdrop hne
    cases htw : r3.takeWhile Char.isAlphanum with
    | nil => exact absurd htw hne
    | cons a as =>
      rw [hrule]
      simp [csv, terminated, alphanumeric1, htw, hdrop, pchar]
  · intro c t hdrop hc
    cases htw : r3.takeWhile Char.isAlphanum with
    | nil =>
      have hnone : parse_rule_info input = none := by
        rw [hrule]; simp [csv, terminated, alphanumeric1, htw]
      exact ⟨hnone, by simp [parse_packet_filter, hnone]⟩
    | cons a as =>
      have hnone : parse_rule_info input = none := by
        rw [hrule]; simp [csv, terminated, alphanumeric1, htw, hdrop, pchar, hc]
      exact ⟨hnone, by simp [parse_packet_filter, hnone]⟩

/-- Witness for C9: a label with a hyphen fails, an alphanumeric label
succeeds. -/
theorem C9_witness :
    (parse_rule_info "7,,anc,ab-cd,x".data = none ∧
      parse_packet_filter "7,,anc,ab-cd,x".data = none) ∧
    parse_rule_info "7,,anc,ab,x".data =
      some (['x'], ⟨7, none, some "anc".data, ['a', 'b']⟩) :=
  ⟨(C9 "7,,anc,ab-cd,x".data ",anc,ab-cd,x".data "anc,ab-cd,x".data "ab-cd,x".data
      7 none (some "anc".data) (by decide) (by decide) (by decide)).2.2
      '-' "cd,x".data (by decide) (by decide),
   (C9 "7,,anc,ab,x".data ",anc,ab,x".data "anc,ab,x".data "ab,x".data
      7 none (some "anc".data) (by decide) (by decide) (by decide)).2.1
      ['x'] (by decide) (by decide)⟩

/-! Helper lemmas about runs of non-comma characters. -/

theorem takeWhile_ne_of_not_mem (s : List Char) (h : ',' ∉ s) :
    s.takeWhile (fun c => c != ',') = s ∧ s.dropWhile (fun c => c != ',') = [] := by
  induction s with
  | nil => simp [List.takeWhile, List.dropWhile]
  | cons c cs ih =>
    have hc : c ≠ ',' := fun hc => h (hc ▸ List.mem_cons_self c cs)
    have hcs : ',' ∉ cs := fun hm => h (List.mem_cons_of_mem c hm)
    have hb : (c != ',') = true := bne_iff_ne.mpr hc
    have := ih hcs
    simp [List.takeWhile, List.dropWhile, hb, this.1, this.2]

theorem dropWhile_ne_of_mem (s : List Char) (h : ',' ∈ s) :
    ∃ u, s.dropWhile (fun c => c != ',') = ',' :: u := by
  induction s with
  | nil => cases h
  | cons c cs ih =>
    by_cases hc : c = ','
    · exact ⟨cs, by simp [List.dropWhile, hc]⟩
    · have hm : ',' ∈ cs := by
        rcases List.mem_cons.mp h with h1 | h1
        · exact absurd h1.symm hc
        · exact h1
      rcases ih hm with ⟨u, hu⟩
      have hb : (c != ',') = true := bne_iff_ne.mpr hc
      exact ⟨u, by simp [List.dropWhile, hb, hu]⟩

/-- Claim C1 (corrected form): for a protocol name other than tcp/udp, the
Other sub-parser returns the whole remainder as one `UnknownInfo` string
exactly when the remainder contains no comma (the empty remainder
included); a remainder containing a comma makes the sub-parser fail,
because the comma-free prefix must be followed by end of input. -/
theorem C1_other_remainder (s t : List Char) :
    (',' ∉ s → parse_proto_info s (ProtoName.Other t) = some ([], ProtoInfo.UnknownInfo s)) ∧
    (',' ∈ s → parse_proto_info s (ProtoName.Other t) = none) := by
  constructor
  · intro h
    have hs := takeWhile_ne_of_not_mem s h
    simp [parse_proto_info, terminated, parse_utf8_string, take_while, hs.1, hs.2, eof]
  · intro h
    rcases dropWhile_ne_of_mem s h with ⟨u, hu⟩
    simp [parse_proto_info, terminated, parse_utf8_string, take_while, hu, eof]

/-- Claim C1 is false as stated: a remainder containing a comma is rejected
by the Other sub-parser rather than accepted whole. -/
theorem C1_counterexample :
    parse_proto_info ('a' :: ',' :: 'b' :: []) (ProtoName.Other ['x']) = none := by
  decide

/-- Witness for C1: a comma-free remainder is taken verbatim, a remainder
with a comma fails. -/
theorem C1_witness :
    parse_proto_info "ab;cd".data (ProtoName.Other ['i', 'p']) =
      some ([], ProtoInfo.UnknownInfo "ab;cd".data) ∧
    parse_proto_info "ab,cd".data (ProtoName.Other ['i', 'p']) = none :=
  ⟨(C1_other_remainder "ab;cd".data ['i', 'p']).1 (by decide),
   (C1_other_remainder "ab,cd".data ['i', 'p']).2 (by decide)⟩

/-! Model of Rust's textual IP-address grammar (`core::net::parser`), the
meaning of `Ipv4Addr::from_str` and `Ipv6Addr::from_str` used by
`src/src/ip.rs`. -/

def toDigitRadix (radix : Nat) (c : Char) : Option Nat :=
  if c.isDigit then
    let d := c.toNat - 48
    if d < radix then some d else none
  else if radix = 16 ∧ 'a' ≤ c ∧ c ≤ 'f' then some (c.toNat - 87)
  else if radix = 16 ∧ 'A' ≤ c ∧ c ≤ 'F' then some (c.toNat - 55)
  else none

/-- Digit loop of `Parser::read_number`: a digit past `maxDigits` or past
`maxVal` (checked arithmetic in the target width) aborts the whole number;
a non-digit ends it. Returns value, digit count and the remaining input. -/
def readNumLoop (radix maxDigits maxVal : Nat) :
    List Char → Nat → Nat → Option (Nat × Nat × List Char)
  | [], acc, cnt => some (acc, cnt, [])
  | c :: cs, acc, cnt =>
    match toDigitRadix radix c with
    | none => some (acc, cnt, c :: cs)
    | some d =>
      let v := acc * radix + d
      if v > maxVal then none
      else if cnt + 1 > maxDigits then none
      else readNumLoop radix maxDigits maxVal cs v (cnt + 1)

/-- `Parser::read_number`: at least one digit, and (for IPv4 octets) a
leading zero on a multi-digit number is rejected. -/
def readNumber (radix maxDigits maxVal : Nat) (allowZeroLead : Bool) (s : List Char) :
    Option (Nat × List Char) :=
  let lead0 : Bool := match s with | '0' :: _ => true | _ => false
  match readNumLoop radix maxDigits maxVal s 0 0 with
  | none => none
  | some (v, cnt, r) =>
    if cnt = 0 then none
    else if allowZeroLead = false ∧ lead0 = true ∧ 1 < cnt then none
    else some (v, r)

structure Ipv4Addr where
  o1 : Nat
  o2 : Nat
  o3 : Nat
  o4 : Nat
deriving DecidableEq

/-- `Parser::read_ipv4_addr`: four dot-separated decimal octets, each at
most 3 digits, value at most 255, no leading zeros. -/
def readIpv4 (s : List Char) : Option (Ipv4Addr × List Char) :=
  match readNumber 10 3 255 false s with
  | none => none
  | some (a, r1) =>
  match r1 with
  | '.' :: r1b =>
    match readNumber 10 3 255 false r1b with
    | none => none
    | some (b, r2) =>
    match r2 with
    | '.' :: r2b =>
      match readNumber 10 3 255 false r2b with
      | none => none
      | some (c, r3) =>
      match r3 with
      | '.' :: r3b =>
        match readNumber 10 3 255 false r3b with
        | none => none
        | some (d, r4) => some (⟨a, b, c, d⟩, r4)
      | _ => none
    | _ => none
  | _ => none

/-- `Ipv4Addr::from_str`: the whole string must be consumed. -/
def fromStrV4 (s : List Char) : Option Ipv4Addr :=
  match readIpv4 s with
  | some (a, []) => some a
  | _ => none

/-- An IPv6 address as its list of eight 16-bit groups. -/
abbrev Ipv6Addr := List Nat

def readSepNum (i : Nat) (s : List Char) : Option (Nat × List Char) :=
  if i > 0 then
    match s with
    | ':' :: t => readNumber 16 4 65535 true t
    | _ => none
  else readNumber 16 4 65535 true s

def readSepV4 (i : Nat) (s : List Char) : Option (Ipv4Addr × List Char) :=
  if i > 0 then
    match s with
    | ':' :: t => readIpv4 t
    | _ => none
  else readIpv4 s

/-- `read_groups` of `core::net::parser`: at each position with at least
two slots left, first try a trailing embedded IPv4 address (which fills two
groups and stops), else read a colon-separated 16-bit hex group. -/
def readGroupsAux : Nat → Nat → List Char → List Nat × Bool × List Char
  | _, 0, s => ([], false, s)
  | i, slots + 1, s =>
    match (if slots > 0 then readSepV4 i s else none) with
    | some (a, r) => ([a.o1 * 256 + a.o2, a.o3 * 256 + a.o4], true, r)
    | none =>
      match readSepNum i s with
      | some (g, r) =>
        match readGroupsAux (i + 1) slots r with
        | (gs, f, r2) => (g :: gs, f, r2)
      | none => ([], false, s)

/-- `Parser::read_ipv6_addr`: head groups, then an optional `::` with tail
groups placed at the end; an embedded IPv4 part before the `::` is
rejected. -/
def readIpv6 (s : List Char) : Option (Ipv6Addr × List Char) :=
  match readGroupsAux 0 8 s with
  | (head, headV4, r) =>
    if head.length = 8 then some (head, r)
    else if headV4 then none
    else
      match r with
      | ':' :: ':' :: r2 =>
        match readGroupsAux 0 (8 - (head.length + 1)) r2 with
        | (tail, _, r3) =>
          some (head ++ List.replicate (8 - head.length - tail.length) 0 ++ tail, r3)
      | _ => none

/-- `Ipv6Addr::from_str`: the whole string must be consumed. -/
def fromStrV6 (s : List Char) : Option Ipv6Addr :=
  match readIpv6 s with
  | some (a, []) => some a
  | _ => none

inductive IpAddr
  | v4 (a : Ipv4Addr)
  | v6 (a : Ipv6Addr)
deriving DecidableEq

/-! Embedding of `src/src/ip.rs`. -/

/-- `ip::parse_ipv4_addr`: the run up to the next comma must be a valid
IPv4 address. -/
def parse_ipv4_addr : P Ipv4Addr := fun input =>
  match take_till (fun c => c == ',') input with
  | none => none
  | some (next, addr) =>
    match fromStrV4 addr with
    | some a => some (next, a)
    | none => none

/-- `ip::parse_ipv6_addr`. -/
def parse_ipv6_addr : P Ipv6Addr := fun input =>
  match take_till (fun c => c == ',') input with
  | none => none
  | some (next, addr) =>
    match fromStrV6 addr with
    | some a => some (next, a)
    | none => none

structure IpV4 where
  version : Nat
  tos : Nat
  ecn : Option (List Char)
  ttl : Nat
  id : Nat
  offset : Nat
  flags : List Char
deriving DecidableEq

structure IpV6 where
  traffic_class : Nat
  flow_label : List Char
  hoplimit : Nat
deriving DecidableEq

inductive IpSpecific
  | IpV4 (v : IpV4)
  | Ipv6 (v : IpV6)
deriving DecidableEq

/-- `ip::parse_src_dst_addr`: the address grammar is selected by the
already-decided IP variant. -/
def parse_src_dst_addr (input : List Char) (specific : IpSpecific) :
    Option (List Char × (IpAddr × IpAddr)) :=
  match specific with
  | .IpV4 _ =>
    match csv (separated_pair parse_ipv4_addr (pchar ',') parse_ipv4_addr) input with
    | none => none
    | some (next, (src, dst)) => some (next, (IpAddr.v4 src, IpAddr.v4 dst))
  | .Ipv6 _ =>
    match csv (separated_pair parse_ipv6_addr (pchar ',') parse_ipv6_addr) input with
    | none => none
    | some (next, (src, dst)) => some (next, (IpAddr.v6 src, IpAddr.v6 dst))

structure IpData where
  length : Nat
  src : IpAddr
  dst : IpAddr
deriving DecidableEq

/-- `ip::parse_ip_data`. -/
def parse_ip_data (input : List Char) (specific : IpSpecific) :
    Option (List Char × IpData) :=
  match csv parse_u16 input with
  | none => none
  | some (next, length) =>
    match parse_src_dst_addr next specific with
    | none => none
    | some (next2, (src, dst)) => some (next2, ⟨length, src, dst⟩)

/-- `ip::parse_ipv4_header`. -/
def parse_ipv4_header : P (Protocol × IpSpecific) := fun input =>
  match csv hexadecimal_value input with
  | none => none
  | some (n1, tos) =>
  match csv (opt alphanumeric1) n1 with
  | none => none
  | some (n2, ecn) =>
  match csv parse_u8 n2 with
  | none => none
  | some (n3, ttl) =>
  match csv parse_u16 n3 with
  | none => none
  | some (n4, idv) =>
  match csv parse_u16 n4 with
  | none => none
  | some (n5, offset) =>
  match csv alphanumeric1 n5 with
  | none => none
  | some (n6, flags) =>
  match csv parse_u8 n6 with
  | none => none
  | some (n7, protonum) =>
  match csv alphanumeric1 n7 with
  | none => none
  | some (n8, protoname) =>
    some (n8, (⟨protonum, ProtoName.unwrapFromStr (ProtoName.fromStr protoname)⟩,
      .IpV4 ⟨4, tos, ecn, ttl, idv, offset, flags⟩))

/-- `ip::parse_ipv6_header`: traffic class, flow label, hop limit, then
protocol name (any comma-free run) and protocol number. -/
def parse_ipv6_header : P (Protocol × IpSpecific) := fun input =>
  match csv hexadecimal_value input with
  | none => none
  | some (n1, traffic_class) =>
  match csv alphanumeric1 n1 with
  | none => none
  | some (n2, flow_label) =>
  match csv parse_u8 n2 with
  | none => none
  | some (n3, hoplimit) =>
  match csv (take_till (fun c => c == ',')) n3 with
  | none => none
  | some (n4, protoname) =>
  match csv parse_u8 n4 with
  | none => none
  | some (n5, protonum) =>
    some (n5, (⟨protonum, ProtoName.unwrapFromStr (ProtoName.fromStr protoname)⟩,
      .Ipv6 ⟨traffic_class, flow_label, hoplimit⟩))

/-- `ip::parse_ip_header`. -/
def parse_ip_header : P (Protocol × IpSpecific) := fun input =>
  match csv (alt (tag "4".data) (tag "6".data)) input with
  | none => none
  | some (next, version) =>
    match version with
    | ['4'] => parse_ipv4_header next
    | ['6'] => parse_ipv6_header next
    | _ => none

/-- Claim C6: the protocol-name mapping is total — it returns `Ok` on every
string, with "udp" and "tcp" matched exactly and every other token wrapped
as `Other` carrying the literal token — so the `unwrap` applied to it in
both IP header branches can never hit the panicking `Err` branch. -/
theorem C6 (s : List Char) :
    ProtoName.fromStr s =
      Except.ok (ProtoName.unwrapFromStr (ProtoName.fromStr s)) ∧
    ProtoName.unwrapFromStr (ProtoName.fromStr s) =
      (if s = "udp".data then ProtoName.Udp
       else if s = "tcp".data then ProtoName.Tcp
       else ProtoName.Other s) := by
  unfold ProtoName.fromStr ProtoName.unwrapFromStr
  by_cases h1 : s = "udp".data
  · simp [h1]
  · by_cases h2 : s = "tcp".data
    · simp [h1, h2]
    · simp [h1, h2]

theorem takeWhile_append_of_all (p : Char → Bool) (l r : List Char) (c : Char)
    (hl : ∀ x ∈ l, p x = true) (hc : p c = false) :
    (l ++ c :: r).takeWhile p = l ∧ (l ++ c :: r).dropWhile p = c :: r := by
  induction l with
  | nil => simp [List.takeWhile, List.dropWhile, hc]
  | cons a as ih =>
    have ha : p a = true := hl a (List.mem_cons_self a as)
    have has : ∀ x ∈ as, p x = true := fun x hx => hl x (List.mem_cons_of_mem a hx)
    have h2 := ih has
    simp [List.takeWhile, List.dropWhile, ha, h2.1, h2.2]

/-- Claim C2 (corrected field order): the IPv6 branch of the IP header
parser reads traffic_class (hex), flow_label, then the hop-limit byte, and
only afterwards the protocol name and protocol number — the hop limit is
consumed before the protocol identity, not after it. -/
theorem C2_field_order (input n1 n2 n3 n4 n5 : List Char) (tc : Nat) (fl : List Char)
    (hl : Nat) (pn : List Char) (num : Nat)
    (h1 : csv hexadecimal_value input = some (n1, tc))
    (h2 : csv alphanumeric1 n1 = some (n2, fl))
    (h3 : csv parse_u8 n2 = some (n3, hl))
    (h4 : csv (take_till (fun c => c == ',')) n3 = some (n4, pn))
    (h5 : csv parse_u8 n4 = some (n5, num)) :
    parse_ipv6_header input =
      some (n5, (⟨num, ProtoName.unwrapFromStr (ProtoName.fromStr pn)⟩,
        IpSpecific.Ipv6 ⟨tc, fl, hl⟩)) ∧
    parse_ip_header ('6' :: ',' :: input) = parse_ipv6_header input := by
  constructor
  · simp [parse_ipv6_header, h1, h2, h3, h4, h5]
  · rfl

/-- Claim C2 is false as stated: an IPv6 header whose fields follow the
claimed order traffic_class, flow_label, protoname, protonum, hoplimit is
rejected, while the same fields ordered traffic_class, flow_label,
hoplimit, protoname, protonum parse, binding the third field to the hop
limit. -/
theorem C2_counterexample :
    parse_ip_header "6,0x0,fl,tcp,6,64,".data = none ∧
    parse_ip_header "6,0x0,fl,64,tcp,6,".data =
      some ([], (⟨6, ProtoName.Tcp⟩, IpSpecific.Ipv6 ⟨0, ['f', 'l'], 64⟩)) := by
  constructor
  · decide
  · decide

/-- Witness for the corrected C2 on a concrete IPv6 header. -/
theorem C2_witness :
    parse_ipv6_header "0x0,fl,64,udp,17,".data =
      some ([], (⟨17, ProtoName.Udp⟩, IpSpecific.Ipv6 ⟨0, "fl".data, 64⟩)) := by
  have h := (C2_field_order "0x0,fl,64,udp,17,".data "fl,64,udp,17,".data
      "64,udp,17,".data "udp,17,".data "17,".data [] 0 "fl".data 64 "udp".data 17
      (by decide) (by decide) (by decide) (by decide) (by decide)).1
  rw [h]
  decide

/-- Claim C10: the IPv4 branch accepts as protocol name only a nonempty
alphanumeric run anchored by a comma (so a name such as "ipv6-icmp" fails
the IP header stage), while the IPv6 branch accepts any comma-free run,
the empty run included. -/
theorem C10 :
    (∀ input n1 n2 n3 n4 n5 n6 n7 tos ecn ttl idv off flags protonum,
      csv hexadecimal_value input = some (n1, tos) →
      csv (opt alphanumeric1) n1 = some (n2, ecn) →
      csv parse_u8 n2 = some (n3, ttl) →
      csv parse_u16 n3 = some (n4, idv) →
      csv parse_u16 n4 = some (n5, off) →
      csv alphanumeric1 n5 = some (n6, flags) →
      csv parse_u8 n6 = some (n7, protonum) →
      ((n7.takeWhile Char.isAlphanum = [] → parse_ipv4_header input = none) ∧
       (∀ c t, n7.dropWhile Char.isAlphanum = c :: t → c ≠ ',' →
         parse_ipv4_header input = none))) ∧
    (∀ input n1 n2 n3 tc fl hl nm t,
      csv hexadecimal_value input = some (n1, tc) →
      csv alphanumeric1 n1 = some (n2, fl) →
      csv parse_u8 n2 = some (n3, hl) →
      ',' ∉ nm → n3 = nm ++ ',' :: t →
      ((csv parse_u8 t = none → parse_ipv6_header input = none) ∧
       (∀ n5 num, csv parse_u8 t = some (n5, num) →
         parse_ipv6_header input =
           some (n5, (⟨num, ProtoName.unwrapFromStr (ProtoName.fromStr nm)⟩,
             IpSpecific.Ipv6 ⟨tc, fl, hl⟩))))) := by
  constructor
  · intro input n1 n2 n3 n4 n5 n6 n7 tos ecn ttl idv off flags protonum
      h1 h2 h3 h4 h5 h6 h7
    have hhdr : parse_ipv4_header input =
        (match csv alphanumeric1 n7 with
         | none => none
         | some (n8, protoname) =>
           some (n8, (⟨protonum, ProtoName.unwrapFromStr (ProtoName.fromStr protoname)⟩,
             IpSpecific.IpV4 ⟨4, tos, ecn, ttl, idv, off, flags⟩))) := by
      simp [parse_ipv4_header, h1, h2, h3, h4, h5, h6, h7]
    constructor
    · intro hempty
      rw [hhdr]; simp [csv, terminated, alphanumeric1, hempty]
    · intro c t hdrop hc
      cases htw : n7.takeWhile Char.isAlphanum with
      | nil => rw [hhdr]; simp [csv, terminated, alphanumeric1, htw]
      | cons a as =>
        rw [hhdr]; simp [csv, terminated, alphanumeric1, htw, hdrop, pchar, hc]
  · intro input n1 n2 n3 tc fl hl nm t h1 h2 h3 hnm heq
    have hp : ∀ x ∈ nm, (fun c => !(c == ',')) x = true := by
      intro x hx
      have hne : x ≠ ',' := fun h => hnm (h ▸ hx)
      simp [hne]
    have hcf : (fun c => !(c == ',')) ',' = false := by simp
    have htd := takeWhile_append_of_all (fun c => !(c == ',')) nm t ',' hp hcf
    have h4 : csv (take_till (fun c => c == ',')) n3 = some (t, nm) := by
      rw [heq]
      simp [csv, terminated, take_till, take_while, htd.1, htd.2, pchar]
    constructor
    · intro hnone
      simp [parse_ipv6_header, h1, h2, h3, h4, hnone]
    · intro n5 num h5
      simp [parse_ipv6_header, h1, h2, h3, h4, h5]

/-- Witness for C10: "ipv6-icmp" fails the IPv4 branch but parses on the
IPv6 branch. -/
theorem C10_witness :
    parse_ipv4_header "0x0,,1,2,3,f,58,ipv6-icmp,rest".data = none ∧
    parse_ipv6_header "0x0,fl,64,ipv6-icmp,58,".data =
      some ([], (⟨58, ProtoName.Other "ipv6-icmp".data⟩,
        IpSpecific.Ipv6 ⟨0, ['f', 'l'], 64⟩)) := by
  constructor
  · exact (C10.1 "0x0,,1,2,3,f,58,ipv6-icmp,rest".data
      ",1,2,3,f,58,ipv6-icmp,rest".data "1,2,3,f,58,ipv6-icmp,rest".data
      "2,3,f,58,ipv6-icmp,rest".data "3,f,58,ipv6-icmp,rest".data
      "f,58,ipv6-icmp,rest".data "58,ipv6-icmp,rest".data "ipv6-icmp,rest".data
      0 none 1 2 3 ['f'] 58
      (by decide) (by decide) (by decide) (by decide) (by decide) (by decide)
      (by decide)).2 '-' "icmp,rest".data (by decide) (by decide)
  · have h := (C10.2 "0x0,fl,64,ipv6-icmp,58,".data "fl,64,ipv6-icmp,58,".data
      "64,ipv6-icmp,58,".data "ipv6-icmp,58,".data 0 "fl".data 64
      "ipv6-icmp".data "58,".data
      (by decide) (by decide) (by decide) (by decide) (by decide)).2
      [] 58 (by decide)
    rw [h]
    decide

/-- Claim C7: the IP data stage parses both address tokens under the
address family selected by the IpVariant from the header stage: on success
the two addresses are of that family, and a first token that does not
parse under that family makes the stage fail. -/
theorem C7 :
    (∀ input spec rem d, parse_ip_data input spec = some (rem, d) →
      (∀ v, spec = IpSpecific.IpV4 v →
        ∃ a b, d.src = IpAddr.v4 a ∧ d.dst = IpAddr.v4 b) ∧
      (∀ v, spec = IpSpecific.Ipv6 v →
        ∃ a b, d.src = IpAddr.v6 a ∧ d.dst = IpAddr.v6 b)) ∧
    (∀ input spec r len, csv parse_u16 input = some (r, len) →
      (∀ v, spec = IpSpecific.IpV4 v →
        fromStrV4 (r.takeWhile (fun c => !(c == ','))) = none →
        parse_ip_data input spec = none) ∧
      (∀ v, spec = IpSpecific.Ipv6 v →
        fromStrV6 (r.takeWhile (fun c => !(c == ','))) = none →
        parse_ip_data input spec = none)) := by
  constructor
  · intro input spec rem d h
    cases hu : csv parse_u16 input with
    | none =>
      have hz : parse_ip_data input spec = none := by simp [parse_ip_data, hu]
      rw [hz] at h; cases h
    | some y =>
      obtain ⟨next, len⟩ := y
      cases hsd : parse_src_dst_addr next spec with
      | none =>
        have hz : parse_ip_data input spec = none := by simp [parse_ip_data, hu, hsd]
        rw [hz] at h; cases h
      | some z =>
        obtain ⟨next2, src, dst⟩ := z
        have hz : parse_ip_data input spec = some (next2, ⟨len, src, dst⟩) := by
          simp [parse_ip_data, hu, hsd]
        rw [hz] at h
        have hd : d = ⟨len, src, dst⟩ := by cases h; rfl
        subst hd
        cases spec with
        | IpV4 v0 =>
          cases hin : csv (separated_pair parse_ipv4_addr (pchar ',') parse_ipv4_addr) next with
          | none =>
            have hz2 : parse_src_dst_addr next (IpSpecific.IpV4 v0) = none := by
              simp [parse_src_dst_addr, hin]
            rw [hz2] at hsd; cases hsd
          | some w =>
            obtain ⟨nw, s0, d0⟩ := w
            have hz2 : parse_src_dst_addr next (IpSpecific.IpV4 v0) =
                some (nw, (IpAddr.v4 s0, IpAddr.v4 d0)) := by
              simp [parse_src_dst_addr, hin]
            rw [hz2] at hsd
            have hsrc : src = IpAddr.v4 s0 ∧ dst = IpAddr.v4 d0 := by
              cases hsd; exact ⟨rfl, rfl⟩
            constructor
            · intro v hv
              exact ⟨s0, d0, by rw [hsrc.1], by rw [hsrc.2]⟩
            · intro v hv; cases hv
        | Ipv6 v0 =>
          cases hin : csv (separated_pair parse_ipv6_addr (pchar ',') parse_ipv6_addr) next with
          | none =>
            have hz2 : parse_src_dst_addr next (IpSpecific.Ipv6 v0) = none := by
              simp [parse_src_dst_addr, hin]
            rw [hz2] at hsd; cases hsd
          | some w =>
            obtain ⟨nw, s0, d0⟩ := w
            have hz2 : parse_src_dst_addr next (IpSpecific.Ipv6 v0) =
                some (nw, (IpAddr.v6 s0, IpAddr.v6 d0)) := by
              simp [parse_src_dst_addr, hin]
            rw [hz2] at hsd
            have hsrc : src = IpAddr.v6 s0 ∧ dst = IpAddr.v6 d0 := by
              cases hsd; exact ⟨rfl, rfl⟩
            constructor
            · intro v hv; cases hv
            · intro v hv
              exact ⟨s0, d0, by rw [hsrc.1], by rw [hsrc.2]⟩
  · intro input spec r len hu
    constructor
    · intro v hv hfail
      subst hv
      have haddr : parse_ipv4_addr r = none := by
        simp [parse_ipv4_addr, take_till, take_while, hfail]
      have hsp : separated_pair parse_ipv4_addr (pchar ',') parse_ipv4_addr r = none := by
        simp [separated_pair, haddr]
      have hcsv : csv (separated_pair parse_ipv4_addr (pchar ',') parse_ipv4_addr) r = none := by
        simp [csv, terminated, hsp]
      have hsd : parse_src_dst_addr r (IpSpecific.IpV4 v) = none := by
        simp [parse_src_dst_addr, hcsv]
      simp [parse_ip_data, hu, hsd]
    · intro v hv hfail
      subst hv
      have haddr : parse_ipv6_addr r = none := by
        simp [parse_ipv6_addr, take_till, take_while, hfail]
      have hsp : separated_pair parse_ipv6_addr (pchar ',') parse_ipv6_addr r = none := by
        simp [separated_pair, haddr]
      have hcsv : csv (separated_pair parse_ipv6_addr (pchar ',') parse_ipv6_addr) r = none := by
        simp [csv, terminated, hsp]
      have hsd : parse_src_dst_addr r (IpSpecific.Ipv6 v) = none := by
        simp [parse_src_dst_addr, hcsv]
      simp [parse_ip_data, hu, hsd]

/-- Witness for C7: an IPv6-valid token fails under the V4 grammar and an
IPv4-valid token fails under the V6 grammar, while a matching line parses
into addresses of the selected family. -/
theorem C7_witness :
    parse_ip_data "4,::1,::2,".data (IpSpecific.IpV4 ⟨4, 0, none, 1, 2, 3, ['f']⟩) = none ∧
    parse_ip_data "4,1.2.3.4,5.6.7.8,".data (IpSpecific.Ipv6 ⟨0, ['f'], 64⟩) = none ∧
    fromStrV6 "::1".data = some [0, 0, 0, 0, 0, 0, 0, 1] ∧
    fromStrV4 "1.2.3.4".data = some ⟨1, 2, 3, 4⟩ ∧
    (∃ a b, (IpData.mk 4 (IpAddr.v4 ⟨1, 2, 3, 4⟩) (IpAddr.v4 ⟨5, 6, 7, 8⟩)).src = IpAddr.v4 a ∧
      (IpData.mk 4 (IpAddr.v4 ⟨1, 2, 3, 4⟩) (IpAddr.v4 ⟨5, 6, 7, 8⟩)).dst = IpAddr.v4 b) := by
  refine ⟨?_, ?_, by decide, by decide, ?_⟩
  · exact (C7.2 "4,::1,::2,".data (IpSpecific.IpV4 ⟨4, 0, none, 1, 2, 3, ['f']⟩)
      "::1,::2,".data 4 (by decide)).1 ⟨4, 0, none, 1, 2, 3, ['f']⟩ rfl (by decide)
  · exact (C7.2 "4,1.2.3.4,5.6.7.8,".data (IpSpecific.Ipv6 ⟨0, ['f'], 64⟩)
      "1.2.3.4,5.6.7.8,".data 4 (by decide)).2 ⟨0, ['f'], 64⟩ rfl (by decide)
  · exact (C7.1 "4,1.2.3.4,5.6.7.8,".data (IpSpecific.IpV4 ⟨4, 0, none, 1, 2, 3, ['f']⟩)
      [] ⟨4, IpAddr.v4 ⟨1, 2, 3, 4⟩, IpAddr.v4 ⟨5, 6, 7, 8⟩⟩ (by decide)).1
      ⟨4, 0, none, 1, 2, 3, ['f']⟩ rfl

/-! Embedding of `src/src/log.rs`. -/

structure LogParseError where
  raw_log : List Char
  reason : String
deriving DecidableEq

structure FwLog where
  packet_filter : PacketFilter
  ip_specific : IpSpecific
  ip_data : IpData
  protocol : Protocol
  proto_info : ProtoInfo
deriving DecidableEq

/-- `log::parse_log`: the four stages in order, each failure mapped to a
stage-tagged error carrying the whole input line. -/
def parse_log (input : List Char) : Except LogParseError FwLog :=
  match parse_packet_filter input with
  | none => .error ⟨input, "Failed to parse packet filter"⟩
  | some (n1, packet_filter) =>
  match parse_ip_header n1 with
  | none => .error ⟨input, "Failed to parse IP header"⟩
  | some (n2, (protocol, ip_header)) =>
  match parse_ip_data n2 ip_header with
  | none => .error ⟨input, "Failed to parse IP data"⟩
  | some (n3, ip_data) =>
  match parse_proto_info n3 protocol.name with
  | none => .error ⟨input, "Failed to parse protocol-specific information"⟩
  | some (_, proto_info) =>
    .ok ⟨packet_filter, ip_header, ip_data, protocol, proto_info⟩

/-- Claim C5: on any input, the first failing stage in pipeline order
aborts `parse_log` with exactly that stage's error, which carries the
original line unmodified and one of exactly four reason tags; when every
stage succeeds the full record is returned, and no other outcome exists. -/
theorem C5 (input : List Char) :
    (parse_packet_filter input = none →
      parse_log input = .error ⟨input, "Failed to parse packet filter"⟩) ∧
    (∀ n1 pf, parse_packet_filter input = some (n1, pf) →
      parse_ip_header n1 = none →
      parse_log input = .error ⟨input, "Failed to parse IP header"⟩) ∧
    (∀ n1 pf n2 proto hdr, parse_packet_filter input = some (n1, pf) →
      parse_ip_header n1 = some (n2, (proto, hdr)) →
      parse_ip_data n2 hdr = none →
      parse_log input = .error ⟨input, "Failed to parse IP data"⟩) ∧
    (∀ n1 pf n2 proto hdr n3 d, parse_packet_filter input = some (n1, pf) →
      parse_ip_header n1 = some (n2, (proto, hdr)) →
      parse_ip_data n2 hdr = some (n3, d) →
      parse_proto_info n3 proto.name = none →
      parse_log input = .error ⟨input, "Failed to parse protocol-specific information"⟩) ∧
    (∀ n1 pf n2 proto hdr n3 d n4 pi, parse_packet_filter input = some (n1, pf) →
      parse_ip_header n1 = some (n2, (proto, hdr)) →
      parse_ip_data n2 hdr = some (n3, d) →
      parse_proto_info n3 proto.name = some (n4, pi) →
      parse_log input = .ok ⟨pf, hdr, d, proto, pi⟩) ∧
    (∀ e, parse_log input = .error e → e.raw_log = input ∧
      (e.reason = "Failed to parse packet filter" ∨
       e.reason = "Failed to parse IP header" ∨
       e.reason = "Failed to parse IP data" ∨
       e.reason = "Failed to parse protocol-specific information")) := by
  refine ⟨?_, ?_, ?_, ?_, ?_, ?_⟩
  · intro h1; simp [parse_log, h1]
  · intro n1 pf h1 h2; simp [parse_log, h1, h2]
  · intro n1 pf n2 proto hdr h1 h2 h3; simp [parse_log, h1, h2, h3]
  · intro n1 pf n2 proto hdr n3 d h1 h2 h3 h4; simp [parse_log, h1, h2, h3, h4]
  · intro n1 pf n2 proto hdr n3 d n4 pi h1 h2 h3 h4; simp [parse_log, h1, h2, h3, h4]
  · intro e he
    cases h1 : parse_packet_filter input with
    | none =>
      have hz : parse_log input = .error ⟨input, "Failed to parse packet filter"⟩ := by
        simp [parse_log, h1]
      rw [hz] at he
      cases he
      exact ⟨rfl, Or.inl rfl⟩
    | some y1 =>
      obtain ⟨n1, pf⟩ := y1
      cases h2 : parse_ip_header n1 with
      | none =>
        have hz : parse_log input = .error ⟨input, "Failed to parse IP header"⟩ := by
          simp [parse_log, h1, h2]
        rw [hz] at he
        cases he
        exact ⟨rfl, Or.inr (Or.inl rfl)⟩
      | some y2 =>
        obtain ⟨n2, proto, hdr⟩ := y2
        cases h3 : parse_ip_data n2 hdr with
        | none =>
          have hz : parse_log input = .error ⟨input, "Failed to parse IP data"⟩ := by
            simp [parse_log, h1, h2, h3]
          rw [hz] at he
          cases he
          exact ⟨rfl, Or.inr (Or.inr (Or.inl rfl))⟩
        | some y3 =>
          obtain ⟨n3, d⟩ := y3
          cases h4 : parse_proto_info n3 proto.name with
          | none =>
            have hz : parse_log input =
                .error ⟨input, "Failed to parse protocol-specific information"⟩ := by
              simp [parse_log, h1, h2, h3, h4]
            rw [hz] at he
            cases he
            exact ⟨rfl, Or.inr (Or.inr (Or.inr rfl))⟩
          | some y4 =>
            obtain ⟨n4, pi⟩ := y4
            have hz : parse_log input = .ok ⟨pf, hdr, d, proto, pi⟩ := by
              simp [parse_log, h1, h2, h3, h4]
            rw [hz] at he
            cases he

/-- Witness for C5: a line whose filter-decision stage fails, a line whose
IP header stage fails (earlier stage succeeded), and a fully valid line. -/
theorem C5_witness :
    parse_log "x".data = .error ⟨"x".data, "Failed to parse packet filter"⟩ ∧
    parse_log "0,,,a,i,match,pass,in,x".data =
      .error ⟨"0,,,a,i,match,pass,in,x".data, "Failed to parse IP header"⟩ ∧
    parse_log "0,,,a,i,match,pass,in,4,0x0,,1,2,3,f,6,tcp,4,1.2.3.4,5.6.7.8,1,2,0,S,9,,64,,o".data =
      .ok ⟨⟨⟨0, none, none, ['a']⟩, ['i'], .Match, .Pass, .In⟩,
        .IpV4 ⟨4, 0, none, 1, 2, 3, ['f']⟩,
        ⟨4, IpAddr.v4 ⟨1, 2, 3, 4⟩, IpAddr.v4 ⟨5, 6, 7, 8⟩⟩,
        ⟨6, ProtoName.Tcp⟩,
        .TcpInfo ⟨⟨1, 2⟩, 0, ['S'], ['9'], none, 64, none, ['o']⟩⟩ := by
  refine ⟨(C5 "x".data).1 (by decide), ?_, ?_⟩
  · exact (C5 "0,,,a,i,match,pass,in,x".data).2.1
      "x".data ⟨⟨0, none, none, ['a']⟩, ['i'], .Match, .Pass, .In⟩
      (by decide) (by decide)
  · exact (C5 "0,,,a,i,match,pass,in,4,0x0,,1,2,3,f,6,tcp,4,1.2.3.4,5.6.7.8,1,2,0,S,9,,64,,o".data).2.2.2.2.1
      "4,0x0,,1,2,3,f,6,tcp,4,1.2.3.4,5.6.7.8,1,2,0,S,9,,64,,o".data
      ⟨⟨0, none, none, ['a']⟩, ['i'], .Match, .Pass, .In⟩
      "4,1.2.3.4,5.6.7.8,1,2,0,S,9,,64,,o".data
      ⟨6, ProtoName.Tcp⟩ (.IpV4 ⟨4, 0, none, 1, 2, 3, ['f']⟩)
      "1,2,0,S,9,,64,,o".data
      ⟨4, IpAddr.v4 ⟨1, 2, 3, 4⟩, IpAddr.v4 ⟨5, 6, 7, 8⟩⟩
      [] (.TcpInfo ⟨⟨1, 2⟩, 0, ['S'], ['9'], none, 64, none, ['o']⟩)
      (by decide) (by decide) (by decide) (by decide)

/-- Claim C3: on a line whose first three stages succeed with protocol
name Udp, the UDP sub-parser only ever succeeds with an empty remainder;
text left after the payload-length field makes `parse_log` return the
protocol-info stage error, and an exhausted line yields the `UdpInfo`
record. -/
theorem C3 (input n1 n2 n3 : List Char) (pf : PacketFilter) (proto : Protocol)
    (hdr : IpSpecific) (d : IpData)
    (hpf : parse_packet_filter input = some (n1, pf))
    (hih : parse_ip_header n1 = some (n2, (proto, hdr)))
    (hname : proto.name = ProtoName.Udp)
    (hid : parse_ip_data n2 hdr = some (n3, d)) :
    (∀ rem i, parse_udp_info n3 = some (rem, i) → rem = []) ∧
    (∀ rp ports nAfter len, parse_src_dst_ports n3 = some (rp, ports) →
      parse_u32 rp = some (nAfter, len) → nAfter ≠ [] →
      parse_log input =
        .error ⟨input, "Failed to parse protocol-specific information"⟩) ∧
    (∀ rp ports len, parse_src_dst_ports n3 = some (rp, ports) →
      parse_u32 rp = some ([], len) →
      parse_log input = .ok ⟨pf, hdr, d, proto, .UdpInfo ⟨ports, len⟩⟩) := by
  refine ⟨?_, ?_, ?_⟩
  · intro rem i h
    cases hp : parse_src_dst_ports n3 with
    | none =>
      have hz : parse_udp_info n3 = none := by simp [parse_udp_info, hp]
      rw [hz] at h; cases h
    | some y =>
      obtain ⟨rp, ports⟩ := y
      cases ht : terminated parse_u32 eof rp with
      | none =>
        have hz : parse_udp_info n3 = none := by simp [parse_udp_info, hp, ht]
        rw [hz] at h; cases h
      | some y2 =>
        obtain ⟨r2, len⟩ := y2
        have hr2 : r2 = [] := by
          cases hu : parse_u32 rp with
          | none =>
            have hz : terminated parse_u32 eof rp = none := by simp [terminated, hu]
            rw [hz] at ht; cases ht
          | some y3 =>
            obtain ⟨ru, v⟩ := y3
            cases ru with
            | nil =>
              have hz : terminated parse_u32 eof rp = some ([], v) := by
                simp [terminated, hu, eof]
              rw [hz] at ht
              cases ht; rfl
            | cons a as =>
              have hz : terminated parse_u32 eof rp = none := by
                simp [terminated, hu, eof]
              rw [hz] at ht; cases ht
        have hz : parse_udp_info n3 = some (r2, .UdpInfo ⟨ports, len⟩) := by
          simp [parse_udp_info, hp, ht]
        rw [hz] at h
        cases h
        exact hr2
  · intro rp ports nAfter len hp hu hne
    have heof : eof nAfter = none := by
      cases nAfter with
      | nil => exact absurd rfl hne
      | cons a as => simp [eof]
    have ht : terminated parse_u32 eof rp = none := by simp [terminated, hu, heof]
    have hudp : parse_udp_info n3 = none := by simp [parse_udp_info, hp, ht]
    have hpi : parse_proto_info n3 proto.name = none := by
      rw [hname]; simp [parse_proto_info, hudp]
    simp [parse_log, hpf, hih, hid, hpi]
  · intro rp ports len hp hu
    have ht : terminated parse_u32 eof rp = some ([], len) := by
      simp [terminated, hu, eof]
    have hudp : parse_udp_info n3 = some ([], .UdpInfo ⟨ports, len⟩) := by
      simp [parse_udp_info, hp, ht]
    have hpi : parse_proto_info n3 proto.name = some ([], .UdpInfo ⟨ports, len⟩) := by
      rw [hname]; simp [parse_proto_info, hudp]
    simp [parse_log, hpf, hih, hid, hpi]

/-- Witness for C3: the same valid IPv4/UDP line with and without trailing
text after the payload length. -/
theorem C3_witness :
    parse_log "0,,,a,i,match,pass,in,4,0x0,,1,2,3,f,17,udp,4,1.2.3.4,5.6.7.8,1,2,3x".data =
      .error ⟨"0,,,a,i,match,pass,in,4,0x0,,1,2,3,f,17,udp,4,1.2.3.4,5.6.7.8,1,2,3x".data,
        "Failed to parse protocol-specific information"⟩ ∧
    parse_log "0,,,a,i,match,pass,in,4,0x0,,1,2,3,f,17,udp,4,1.2.3.4,5.6.7.8,1,2,3".data =
      .ok ⟨⟨⟨0, none, none, ['a']⟩, ['i'], .Match, .Pass, .In⟩,
        .IpV4 ⟨4, 0, none, 1, 2, 3, ['f']⟩,
        ⟨4, IpAddr.v4 ⟨1, 2, 3, 4⟩, IpAddr.v4 ⟨5, 6, 7, 8⟩⟩,
        ⟨17, ProtoName.Udp⟩, .UdpInfo ⟨⟨1, 2⟩, 3⟩⟩ := by
  constructor
  · exact (C3 "0,,,a,i,match,pass,in,4,0x0,,1,2,3,f,17,udp,4,1.2.3.4,5.6.7.8,1,2,3x".data
      "4,0x0,,1,2,3,f,17,udp,4,1.2.3.4,5.6.7.8,1,2,3x".data
      "4,1.2.3.4,5.6.7.8,1,2,3x".data "1,2,3x".data
      ⟨⟨0, none, none, ['a']⟩, ['i'], .Match, .Pass, .In⟩
      ⟨17, ProtoName.Udp⟩ (.IpV4 ⟨4, 0, none, 1, 2, 3, ['f']⟩)
      ⟨4, IpAddr.v4 ⟨1, 2, 3, 4⟩, IpAddr.v4 ⟨5, 6, 7, 8⟩⟩
      (by decide) (by decide) (by decide) (by decide)).2.1
      "3x".data ⟨1, 2⟩ ['x'] 3 (by decide) (by decide) (by decide)
  · exact (C3 "0,,,a,i,match,pass,in,4,0x0,,1,2,3,f,17,udp,4,1.2.3.4,5.6.7.8,1,2,3".data
      "4,0x0,,1,2,3,f,17,udp,4,1.2.3.4,5.6.7.8,1,2,3".data
      "4,1.2.3.4,5.6.7.8,1,2,3".data "1,2,3".data
      ⟨⟨0, none, none, ['a']⟩, ['i'], .Match, .Pass, .In⟩
      ⟨17, ProtoName.Udp⟩ (.IpV4 ⟨4, 0, none, 1, 2, 3, ['f']⟩)
      ⟨4, IpAddr.v4 ⟨1, 2, 3, 4⟩, IpAddr.v4 ⟨5, 6, 7, 8⟩⟩
      (by decide) (by decide) (by decide) (by decide)).2.2
      "3".data ⟨1, 2⟩ 3 (by decide) (by decide)

end Senpa
